import Mathlib

/-!
Verification of the hydrologic-analysis pipeline (src/tools/hydrologic_analysis.py).

The pipeline chains five stages: DEM acquisition (`download_dem_for_aoi`),
core hydrology (`perform_core_hydrology`), pour-point identification
(`find_pour_points_with_networkx`), sub-catchment delineation
(`delineate_sub_catchments`) and the orchestrator (`run_full_workflow_os`).

External collaborators (the Seamless3DEP tile fetch, the PySheds raster
engine, file I/O) are modelled as explicit inputs: an environment record
supplies the outcome of each external call, and each stage is embedded as a
pure function of those outcomes.  Exceptions raised by a stage are modelled
with `Except`; the orchestrator result is a `RunTrace` recording which
stages ran, which outputs were written (with their CRS), and which log
events fired.

The networkx `DiGraph` is embedded as a pair of duplicate-free lists: the
node list and the edge list, both in insertion order, exactly as
`DiGraph.add_edge` maintains them (adding an edge inserts its endpoints as
nodes when absent, and never stores a duplicate edge).
-/

/-- Name of the merged raster written by `download_dem_for_aoi` when more
than one tile is returned (FILE_CONFIG merged_dem). -/
def mergedDemName : String := "dem_merged.tif"

/-- Stage 1, `download_dem_for_aoi`: the whole body runs inside one
`try/except` that converts every exception into `None`.  `fetchResult`
is the outcome of the external `s3dep.get_dem` call (`Except.error` when the
fetch itself raises); an empty tile list raises, and the handler turns the
raise into `None`.  One tile is returned as is; several tiles are merged,
`mergeFails` modelling an exception inside the merge. -/
def download_dem_for_aoi (fetchResult : Except Unit (List String))
    (mergeFails : Bool) : Option String :=
  match fetchResult with
  | Except.error _ => none
  | Except.ok [] => none
  | Except.ok [t] => some t
  | Except.ok (_ :: _ :: _) => if mergeFails then none else some mergedDemName

/-- Inputs of `perform_core_hydrology` that come from the external PySheds
computation: the extracted stream features (polylines, each an ordered list
of vertex coordinates) and the CRS read from the original elevation
raster. -/
structure HydroEnv (γ κ : Type) where
  features : List (List (γ × γ))
  crs : κ

/-- What `perform_core_hydrology` hands downstream: the stream network
content when one was written (`stream_network_path` stays `None` for an
empty feature list), the CRS captured from the original DEM, and the CRS
attached to the stream-network file when that file was written. -/
structure HydroOut (γ κ : Type) where
  streamNet : Option (List (List (γ × γ)))
  crs : κ
  streamFileCrs : Option κ

/-- Stages 2 and 3, `perform_core_hydrology`: persists the stream network
only when `streams["features"]` is non-empty, stamps it with the CRS read
from the original DEM raster, and returns that same CRS for downstream
stages. -/
def perform_core_hydrology {γ κ : Type} (h : HydroEnv γ κ) : HydroOut γ κ :=
  if h.features.isEmpty then
    { streamNet := none, crs := h.crs, streamFileCrs := none }
  else
    { streamNet := some h.features, crs := h.crs, streamFileCrs := some h.crs }

/-- A networkx `DiGraph` as maintained by repeated `add_edge`: nodes in
first-insertion order without duplicates, edges in insertion order without
duplicates. -/
structure NxDiGraph (α : Type) where
  nodes : List α
  edges : List (α × α)
deriving DecidableEq

/-- One `G.add_edge(u, v)`: insert `u`, then `v`, into the node list when
absent, and append the edge when absent. -/
def addEdge {α : Type} [DecidableEq α] (G : NxDiGraph α) (e : α × α) :
    NxDiGraph α :=
  let ns1 := if e.1 ∈ G.nodes then G.nodes else G.nodes ++ [e.1]
  let ns2 := if e.2 ∈ ns1 then ns1 else ns1 ++ [e.2]
  { nodes := ns2,
    edges := if e ∈ G.edges then G.edges else G.edges ++ [e] }

/-- Consecutive vertex pairs of one polyline: the loop
`for i in range(len(line.coords) - 1): G.add_edge(coords[i], coords[i+1])`. -/
def lineEdges {α : Type} (line : List α) : List (α × α) := line.zip line.tail

/-- The full graph-building loop of `find_pour_points_with_networkx`:
every consecutive vertex pair of every polyline is added as a directed
edge. -/
def buildGraph {α : Type} [DecidableEq α] (net : List (List α)) :
    NxDiGraph α :=
  net.foldl (fun G line => (lineEdges line).foldl addEdge G) ⟨[], []⟩

/-- `G.in_degree(n)`: the number of stored edges ending at `n` (the edge
list is duplicate-free, so this is the number of distinct predecessors). -/
def inDeg {α : Type} [DecidableEq α] (G : NxDiGraph α) (n : α) : Nat :=
  G.edges.countP (fun e => decide (e.2 = n))

/-- `G.out_degree(n)` analogue, used only in statements about pass-through
nodes. -/
def outDeg {α : Type} [DecidableEq α] (G : NxDiGraph α) (n : α) : Nat :=
  G.edges.countP (fun e => decide (e.1 = n))

/-- The `junction_nodes` list: nodes of the built graph with in-degree at
least 2, in node-iteration order. -/
def junction_nodes {α : Type} [DecidableEq α] (G : NxDiGraph α) : List α :=
  G.nodes.filter (fun n => decide (2 ≤ inDeg G n))

/-- The `termini_nodes` list: the `elif` branch, nodes that failed the
junction test and have in-degree 0. -/
def termini_nodes {α : Type} [DecidableEq α] (G : NxDiGraph α) : List α :=
  G.nodes.filter (fun n => !decide (2 ≤ inDeg G n) && decide (inDeg G n = 0))

/-- The `point_type` attribute written for each pour-point feature. -/
inductive PointType
  | JUNCTION
  | TERMINUS
deriving DecidableEq

/-- The `points_data` list: one JUNCTION feature per junction node followed
by one TERMINUS feature per terminus node. -/
def points_data {α : Type} [DecidableEq α] (G : NxDiGraph α) :
    List (α × PointType) :=
  (junction_nodes G).map (fun n => (n, PointType.JUNCTION)) ++
    (termini_nodes G).map (fun n => (n, PointType.TERMINUS))

/-- The second component returned by `find_pour_points_with_networkx`: in
Python either the bare empty list `[]` or the tuple
`(x_coords, y_coords)`.  The two shapes are distinct values of this type. -/
inductive PourCoords (γ : Type) where
  | emptyList : PourCoords γ
  | pair : List γ → List γ → PourCoords γ
deriving DecidableEq

/-- Stage 4, `find_pour_points_with_networkx`: with no stream network it
returns `(None, [])` at once; otherwise it builds the directed graph from
all polylines, classifies nodes by in-degree, returns `(None, [])` when no
pour point was found, and otherwise writes the point layer with the given
CRS and returns its path together with the x and y coordinate lists. -/
def find_pour_points_with_networkx {γ κ : Type} [DecidableEq γ]
    (stream_network : Option (List (List (γ × γ)))) (crs : κ) :
    Option (List ((γ × γ) × PointType) × κ) × PourCoords γ :=
  match stream_network with
  | none => (none, PourCoords.emptyList)
  | some net =>
    let G := buildGraph net
    let pts := points_data G
    if pts.isEmpty then (none, PourCoords.emptyList)
    else
      (some (pts, crs),
        PourCoords.pair (pts.map (fun p => p.1.1)) (pts.map (fun p => p.1.2)))

/-- The polygons kept for one snapped pour point: of the `(geom, value)`
pairs produced by `grid.polygonize`, those with `value == 1` (the catchment
area). -/
def polysFor {α π : Type} (shapesOf : α → List (π × Nat)) (p : α) : List π :=
  ((shapesOf p).filter (fun s => decide (s.2 = 1))).map Prod.fst

/-- Stage 5, `delineate_sub_catchments`: unpacking `x, y = pour_point_coords`
raises a `ValueError` when the value is the bare empty list (modelled as
`Except.error`); otherwise the points are zipped, snapped, each snapped
point contributes its `value == 1` polygons to one accumulated list, and
the layer is written (with the given CRS) only when that list is
non-empty — an empty accumulation returns `None`.  `snap` is the external
`grid.snap_to_mask` and `shapesOf` the external catchment trace plus
polygonization for one snapped point. -/
def delineate_sub_catchments {γ κ π : Type} (snap : (γ × γ) → (γ × γ))
    (shapesOf : (γ × γ) → List (π × Nat)) (pour_point_coords : PourCoords γ)
    (crs : κ) : Except Unit (Option (List π × κ)) :=
  match pour_point_coords with
  | PourCoords.emptyList => Except.error ()
  | PourCoords.pair x y =>
    let snapped := (x.zip y).map snap
    let allShapes := snapped.foldl (fun acc p => acc ++ polysFor shapesOf p) []
    Except.ok (if allShapes.isEmpty then none else some (allShapes, crs))

/-- Squared distance between a query point and a raster cell center, used
by the nearest-cell search of snapping. -/
def dist2 (p c : ℤ × ℤ) : Nat :=
  (p.1 - c.1).natAbs ^ 2 + (p.2 - c.2).natAbs ^ 2

/-- Modelled from the spec: `grid.snap_to_mask` is PySheds library code not
present in this repository; the spec describes it as relocating each pour
point to the nearest raster cell satisfying the mask predicate.  The mask
is given as the list of cells where the predicate holds, and the nearest
one (by squared distance) is returned. -/
def snap_to_mask (mask : List (ℤ × ℤ)) (p : ℤ × ℤ) : ℤ × ℤ :=
  match mask.argmin (fun c => dist2 p c) with
  | some c => c
  | none => p

/-- The channel mask `acc > 0` used by the snapping step of
`delineate_sub_catchments`: the raster cells whose accumulation value is
positive. -/
def channel_cells (cells : List (ℤ × ℤ)) (accOf : (ℤ × ℤ) → Nat) :
    List (ℤ × ℤ) :=
  cells.filter (fun c => decide (0 < accOf c))

/-- Everything external that one workflow run consumes: the tile-fetch
outcome, whether the merge raises, the PySheds computation outcome
(`Except.error` when stage 2 raises), whether the pour-point stage or the
delineation stage raises for an exogenous reason (file I/O, library
internals), and the external snapping and catchment-trace functions. -/
structure WorkflowEnv (γ κ π : Type) where
  fetchResult : Except Unit (List String)
  mergeFails : Bool
  hydro : Except Unit (HydroEnv γ κ)
  pourExc : Bool
  delinExc : Bool
  snap : (γ × γ) → (γ × γ)
  shapesOf : (γ × γ) → List (π × Nat)

/-- Observable outcome of one orchestrator run: which stage functions were
invoked, which log events fired, and which outputs were written together
with the CRS they carry. -/
structure RunTrace (γ κ π : Type) where
  ranHydrology : Bool := false
  ranTopology : Bool := false
  ranDelineation : Bool := false
  haltedNoDem : Bool := false
  skipLogged : Bool := false
  unpackError : Bool := false
  errorLogged : Bool := false
  finishedLog : Bool := false
  streamOut : Option κ := none
  pourOut : Option (List ((γ × γ) × PointType) × κ) := none
  catchOut : Option (List π × κ) := none

/-- The orchestrator `run_full_workflow_os`: its whole body is wrapped in
`try/except Exception/finally`.  A missing DEM halts before hydrology; any
stage exception reaches the `except` clause, which logs it
(`errorLogged`); the `finally` clause always logs the finish
(`finishedLog`).  Topology is invoked unconditionally after hydrology, and
delineation only when the pour-point path is present. -/
def run_full_workflow_os {γ κ π : Type} [DecidableEq γ]
    (env : WorkflowEnv γ κ π) : RunTrace γ κ π :=
  match download_dem_for_aoi env.fetchResult env.mergeFails with
  | none => { haltedNoDem := true, finishedLog := true }
  | some _ =>
    match env.hydro with
    | Except.error _ =>
      { ranHydrology := true, errorLogged := true, finishedLog := true }
    | Except.ok hy =>
      let hOut := perform_core_hydrology hy
      if env.pourExc then
        { ranHydrology := true, ranTopology := true,
          streamOut := hOut.streamFileCrs,
          errorLogged := true, finishedLog := true }
      else
        match find_pour_points_with_networkx hOut.streamNet hOut.crs with
        | (none, _) =>
          { ranHydrology := true, ranTopology := true,
            streamOut := hOut.streamFileCrs,
            skipLogged := true, finishedLog := true }
        | (some pp, coords) =>
          if env.delinExc then
            { ranHydrology := true, ranTopology := true,
              ranDelineation := true,
              streamOut := hOut.streamFileCrs, pourOut := some pp,
              errorLogged := true, finishedLog := true }
          else
            match delineate_sub_catchments env.snap env.shapesOf coords
                hOut.crs with
            | Except.error _ =>
              { ranHydrology := true, ranTopology := true,
                ranDelineation := true,
                streamOut := hOut.streamFileCrs, pourOut := some pp,
                unpackError := true, errorLogged := true,
                finishedLog := true }
            | Except.ok c =>
              { ranHydrology := true, ranTopology := true,
                ranDelineation := true,
                streamOut := hOut.streamFileCrs, pourOut := some pp,
                catchOut := c, finishedLog := true }

/-! Membership and duplicate-freeness of the graph maintained by
`add_edge`. -/

theorem mem_addEdge_nodes {α : Type} [DecidableEq α] (G : NxDiGraph α)
    (e : α × α) (n : α) :
    n ∈ (addEdge G e).nodes ↔ n ∈ G.nodes ∨ n = e.1 ∨ n = e.2 := by
  simp only [addEdge]
  split <;> split <;> simp_all [List.mem_append] <;> aesop

theorem mem_addEdge_edges {α : Type} [DecidableEq α] (G : NxDiGraph α)
    (e x : α × α) :
    x ∈ (addEdge G e).edges ↔ x ∈ G.edges ∨ x = e := by
  simp only [addEdge]
  split <;> simp_all [List.mem_append]

theorem nodup_addEdge_nodes {α : Type} [DecidableEq α] (G : NxDiGraph α)
    (e : α × α) (h : G.nodes.Nodup) : (addEdge G e).nodes.Nodup := by
  simp only [addEdge]
  split <;> split <;> simp_all [List.nodup_append] <;> aesop

theorem nodup_addEdge_edges {α : Type} [DecidableEq α] (G : NxDiGraph α)
    (e : α × α) (h : G.edges.Nodup) : (addEdge G e).edges.Nodup := by
  simp only [addEdge]
  split <;> simp_all [List.nodup_append]

theorem mem_foldl_addEdge_edges {α : Type} [DecidableEq α]
    (es : List (α × α)) (G : NxDiGraph α) (x : α × α) :
    x ∈ (es.foldl addEdge G).edges ↔ x ∈ G.edges ∨ x ∈ es := by
  induction es generalizing G with
  | nil => simp
  | cons e es ih =>
    simp only [List.foldl_cons, ih, mem_addEdge_edges, List.mem_cons]
    tauto

theorem mem_foldl_addEdge_nodes {α : Type} [DecidableEq α]
    (es : List (α × α)) (G : NxDiGraph α) (n : α) :
    n ∈ (es.foldl addEdge G).nodes ↔
      n ∈ G.nodes ∨ ∃ e ∈ es, n = e.1 ∨ n = e.2 := by
  induction es generalizing G with
  | nil => simp
  | cons e es ih =>
    simp only [List.foldl_cons, ih, mem_addEdge_nodes, List.mem_cons]
    aesop

theorem nodup_foldl_addEdge_nodes {α : Type} [DecidableEq α]
    (es : List (α × α)) (G : NxDiGraph α) (h : G.nodes.Nodup) :
    (es.foldl addEdge G).nodes.Nodup := by
  induction es generalizing G with
  | nil => exact h
  | cons e es ih => exact ih _ (nodup_addEdge_nodes _ _ h)

theorem nodup_foldl_addEdge_edges {α : Type} [DecidableEq α]
    (es : List (α × α)) (G : NxDiGraph α) (h : G.edges.Nodup) :
    (es.foldl addEdge G).edges.Nodup := by
  induction es generalizing G with
  | nil => exact h
  | cons e es ih => exact ih _ (nodup_addEdge_edges _ _ h)

theorem mem_buildGraph_edges {α : Type} [DecidableEq α]
    (net : List (List α)) (x : α × α) :
    x ∈ (buildGraph net).edges ↔ ∃ l ∈ net, x ∈ lineEdges l := by
  have key : ∀ (ls : List (List α)) (G : NxDiGraph α),
      x ∈ (ls.foldl (fun G line => (lineEdges line).foldl addEdge G) G).edges
        ↔ x ∈ G.edges ∨ ∃ l ∈ ls, x ∈ lineEdges l := by
    intro ls
    induction ls with
    | nil => simp
    | cons l ls ih =>
      intro G
      simp only [List.foldl_cons, ih, mem_foldl_addEdge_edges, List.mem_cons]
      aesop
  simpa [buildGraph] using key net ⟨[], []⟩

theorem mem_buildGraph_nodes {α : Type} [DecidableEq α]
    (net : List (List α)) (n : α) :
    n ∈ (buildGraph net).nodes ↔
      ∃ l ∈ net, ∃ e ∈ lineEdges l, n = e.1 ∨ n = e.2 := by
  have key : ∀ (ls : List (List α)) (G : NxDiGraph α),
      n ∈ (ls.foldl (fun G line => (lineEdges line).foldl addEdge G) G).nodes
        ↔ n ∈ G.nodes ∨ ∃ l ∈ ls, ∃ e ∈ lineEdges l, n = e.1 ∨ n = e.2 := by
    intro ls
    induction ls with
    | nil => simp
    | cons l ls ih =>
      intro G
      simp only [List.foldl_cons, ih, mem_foldl_addEdge_nodes, List.mem_cons]
      aesop
  simpa [buildGraph] using key net ⟨[], []⟩

theorem nodup_buildGraph_nodes {α : Type} [DecidableEq α]
    (net : List (List α)) : (buildGraph net).nodes.Nodup := by
  have key : ∀ (ls : List (List α)) (G : NxDiGraph α), G.nodes.Nodup →
      (ls.foldl (fun G line => (lineEdges line).foldl addEdge G) G).nodes.Nodup := by
    intro ls
    induction ls with
    | nil => exact fun _ h => h
    | cons l ls ih => exact fun G h => ih _ (nodup_foldl_addEdge_nodes _ _ h)
  exact key net ⟨[], []⟩ List.nodup_nil

theorem nodup_buildGraph_edges {α : Type} [DecidableEq α]
    (net : List (List α)) : (buildGraph net).edges.Nodup := by
  have key : ∀ (ls : List (List α)) (G : NxDiGraph α), G.edges.Nodup →
      (ls.foldl (fun G line => (lineEdges line).foldl addEdge G) G).edges.Nodup := by
    intro ls
    induction ls with
    | nil => exact fun _ h => h
    | cons l ls ih => exact fun G h => ih _ (nodup_foldl_addEdge_edges _ _ h)
  exact key net ⟨[], []⟩ List.nodup_nil

theorem mem_nodes_of_mem_edges {α : Type} [DecidableEq α]
    (net : List (List α)) (x : α × α) (hx : x ∈ (buildGraph net).edges) :
    x.1 ∈ (buildGraph net).nodes ∧ x.2 ∈ (buildGraph net).nodes := by
  rcases (mem_buildGraph_edges net x).mp hx with ⟨l, hl, hxl⟩
  constructor
  · exact (mem_buildGraph_nodes net x.1).mpr ⟨l, hl, x, hxl, Or.inl rfl⟩
  · exact (mem_buildGraph_nodes net x.2).mpr ⟨l, hl, x, hxl, Or.inr rfl⟩


/-! Counting helpers for the emitted point features.  `countOcc a l` is the
number of occurrences of `a` in `l`; a feature is emitted exactly once when
its occurrence count in `points_data` is 1. -/

def countOcc {α : Type} [DecidableEq α] (a : α) : List α → Nat
  | [] => 0
  | b :: l => (if b = a then 1 else 0) + countOcc a l

theorem countOcc_eq_zero_iff {α : Type} [DecidableEq α] (a : α)
    (l : List α) : countOcc a l = 0 ↔ a ∉ l := by
  induction l with
  | nil => simp [countOcc]
  | cons b l ih =>
    by_cases hba : b = a
    · subst hba
      simp [countOcc]
    · have hab : ¬a = b := fun h => hba h.symm
      simp [countOcc, hba, hab, ih]

theorem countOcc_append {α : Type} [DecidableEq α] (a : α) (l m : List α) :
    countOcc a (l ++ m) = countOcc a l + countOcc a m := by
  induction l with
  | nil => simp [countOcc]
  | cons b l ih => simp [countOcc, ih]; omega

theorem countOcc_map_pair_eq {α : Type} [DecidableEq α] (l : List α) (n : α)
    (c : PointType) :
    countOcc (n, c) (l.map (fun m => (m, c))) = countOcc n l := by
  induction l with
  | nil => rfl
  | cons b l ih => simp [countOcc, ih, Prod.ext_iff]

theorem countOcc_map_pair_ne {α : Type} [DecidableEq α] (l : List α) (n : α)
    {c d : PointType} (h : c ≠ d) :
    countOcc (n, d) (l.map (fun m => (m, c))) = 0 := by
  rw [countOcc_eq_zero_iff]
  simp only [List.mem_map, Prod.mk.injEq, not_exists]
  rintro m ⟨-, -, rfl⟩
  exact h rfl

theorem countOcc_of_nodup {α : Type} [DecidableEq α] (l : List α)
    (hl : l.Nodup) (a : α) : countOcc a l = if a ∈ l then 1 else 0 := by
  induction l with
  | nil => simp [countOcc]
  | cons b l ih =>
    rcases List.nodup_cons.mp hl with ⟨hb, hl2⟩
    by_cases hba : b = a
    · subst hba
      simp [countOcc, ih hl2, hb, (countOcc_eq_zero_iff b l).mpr hb]
    · have hab : ¬a = b := fun h => hba h.symm
      simp [countOcc, hba, hab, ih hl2]

theorem mem_nodes_of_inDeg_pos {α : Type} [DecidableEq α]
    (net : List (List α)) (n : α)
    (h : 0 < inDeg (buildGraph net) n) : n ∈ (buildGraph net).nodes := by
  rcases List.countP_pos_iff.mp h with ⟨e, he, hen⟩
  have h2 : e.2 = n := by simpa using hen
  exact h2 ▸ (mem_nodes_of_mem_edges net e he).2

theorem mem_junction_nodes_iff {α : Type} [DecidableEq α]
    (G : NxDiGraph α) (n : α) :
    n ∈ junction_nodes G ↔ n ∈ G.nodes ∧ 2 ≤ inDeg G n := by
  simp [junction_nodes, List.mem_filter]

theorem mem_termini_nodes_iff {α : Type} [DecidableEq α]
    (G : NxDiGraph α) (n : α) :
    n ∈ termini_nodes G ↔ n ∈ G.nodes ∧ inDeg G n = 0 := by
  simp only [termini_nodes, List.mem_filter, Bool.and_eq_true,
    Bool.not_eq_true', decide_eq_false_iff_not, decide_eq_true_eq]
  constructor
  · rintro ⟨hn, -, h0⟩; exact ⟨hn, h0⟩
  · rintro ⟨hn, h0⟩; exact ⟨hn, by omega, h0⟩

/-- Claim C2: after the full directed graph is built from consecutive
vertex pairs of every polyline, a node is emitted as a JUNCTION exactly
once if and only if its in-degree is at least 2, emitted as a TERMINUS
exactly once if and only if it is a node of the graph with in-degree 0,
and any node with in-degree 1 appears in neither output set. -/
theorem pour_point_classification {α : Type} [DecidableEq α]
    (net : List (List α)) (n : α) :
    (countOcc (n, PointType.JUNCTION) (points_data (buildGraph net)) =
      if 2 ≤ inDeg (buildGraph net) n then 1 else 0) ∧
    (countOcc (n, PointType.TERMINUS) (points_data (buildGraph net)) =
      if n ∈ (buildGraph net).nodes ∧ inDeg (buildGraph net) n = 0
      then 1 else 0) ∧
    (inDeg (buildGraph net) n = 1 →
      (n, PointType.JUNCTION) ∉ points_data (buildGraph net) ∧
      (n, PointType.TERMINUS) ∉ points_data (buildGraph net)) := by
  have hnodes := nodup_buildGraph_nodes net
  have hjn : (junction_nodes (buildGraph net)).Nodup :=
    List.Nodup.filter _ hnodes
  have htn : (termini_nodes (buildGraph net)).Nodup :=
    List.Nodup.filter _ hnodes
  have hj : countOcc (n, PointType.JUNCTION) (points_data (buildGraph net)) =
      countOcc n (junction_nodes (buildGraph net)) := by
    rw [points_data, countOcc_append, countOcc_map_pair_eq,
      countOcc_map_pair_ne _ n
        (show PointType.TERMINUS ≠ PointType.JUNCTION by simp)]
    omega
  have ht : countOcc (n, PointType.TERMINUS) (points_data (buildGraph net)) =
      countOcc n (termini_nodes (buildGraph net)) := by
    rw [points_data, countOcc_append, countOcc_map_pair_eq,
      countOcc_map_pair_ne _ n
        (show PointType.JUNCTION ≠ PointType.TERMINUS by simp)]
    omega
  refine ⟨?_, ?_, ?_⟩
  · rw [hj, countOcc_of_nodup _ hjn]
    by_cases h2 : 2 ≤ inDeg (buildGraph net) n
    · have hmem : n ∈ (buildGraph net).nodes :=
        mem_nodes_of_inDeg_pos net n (by omega)
      simp [mem_junction_nodes_iff, hmem, h2]
    · simp [mem_junction_nodes_iff, h2]
  · rw [ht, countOcc_of_nodup _ htn]
    by_cases hc : n ∈ (buildGraph net).nodes ∧ inDeg (buildGraph net) n = 0
    · simp [mem_termini_nodes_iff, hc.1, hc.2]
    · simp only [mem_termini_nodes_iff]
  · intro h1
    constructor
    · intro hmem
      have : countOcc (n, PointType.JUNCTION)
          (points_data (buildGraph net)) = 0 := by
        rw [hj, countOcc_of_nodup _ hjn]
        simp [mem_junction_nodes_iff, h1]
      exact absurd hmem
        (by simpa using (countOcc_eq_zero_iff _ _).mp this)
    · intro hmem
      have : countOcc (n, PointType.TERMINUS)
          (points_data (buildGraph net)) = 0 := by
        rw [ht, countOcc_of_nodup _ htn]
        simp [mem_termini_nodes_iff, h1]
      exact absurd hmem
        (by simpa using (countOcc_eq_zero_iff _ _).mp this)

/-- Concrete network for the C2 witness: two branches converge at (1, 0)
(a junction, in-degree 2), which continues to (1, -1) (in-degree 1,
emitted as neither). -/
def netC2 : List (List (Int × Int)) :=
  [[(0, 0), (1, 0)], [(2, 2), (1, 0)], [(1, 0), (1, -1)]]

/-- Witness for C2 at a concrete network, evaluating the classification
counts and discharging the in-degree-1 hypothesis at node (1, -1). -/
theorem pour_point_classification_witness :
    (countOcc (((1 : Int), (-1 : Int)), PointType.JUNCTION)
        (points_data (buildGraph netC2)) =
      if 2 ≤ inDeg (buildGraph netC2) ((1 : Int), (-1 : Int)) then 1
      else 0) ∧
    (countOcc (((1 : Int), (-1 : Int)), PointType.TERMINUS)
        (points_data (buildGraph netC2)) =
      if ((1 : Int), (-1 : Int)) ∈ (buildGraph netC2).nodes ∧
          inDeg (buildGraph netC2) ((1 : Int), (-1 : Int)) = 0
      then 1 else 0) ∧
    ((((1 : Int), (-1 : Int)), PointType.JUNCTION) ∉
        points_data (buildGraph netC2) ∧
      (((1 : Int), (-1 : Int)), PointType.TERMINUS) ∉
        points_data (buildGraph netC2)) :=
  ⟨(pour_point_classification netC2 ((1 : Int), (-1 : Int))).1,
    (pour_point_classification netC2 ((1 : Int), (-1 : Int))).2.1,
    (pour_point_classification netC2 ((1 : Int), (-1 : Int))).2.2
      (by decide)⟩

/-- Claim C8: for every permutation of the polylines of a stream network,
the built directed graph has the same edge set and the same node set, the
in-degree of every node is unchanged, and therefore the JUNCTION and
TERMINUS classifications are the same sets — classification is computed
from the in-degrees of the fully built graph and from nothing else. -/
theorem graph_perm_invariance {α : Type} [DecidableEq α]
    (net net2 : List (List α)) (hperm : net.Perm net2) :
    (buildGraph net).edges.toFinset = (buildGraph net2).edges.toFinset ∧
    (buildGraph net).nodes.toFinset = (buildGraph net2).nodes.toFinset ∧
    (∀ n, inDeg (buildGraph net) n = inDeg (buildGraph net2) n) ∧
    (junction_nodes (buildGraph net)).toFinset =
      (junction_nodes (buildGraph net2)).toFinset ∧
    (termini_nodes (buildGraph net)).toFinset =
      (termini_nodes (buildGraph net2)).toFinset := by
  have hedges_mem : ∀ x, x ∈ (buildGraph net).edges ↔
      x ∈ (buildGraph net2).edges := by
    intro x
    rw [mem_buildGraph_edges, mem_buildGraph_edges]
    constructor
    · rintro ⟨l, hl, hx⟩; exact ⟨l, hperm.mem_iff.mp hl, hx⟩
    · rintro ⟨l, hl, hx⟩; exact ⟨l, hperm.mem_iff.mpr hl, hx⟩
  have hE : (buildGraph net).edges.toFinset =
      (buildGraph net2).edges.toFinset := by
    ext x
    simp only [List.mem_toFinset]
    exact hedges_mem x
  have hEperm : (buildGraph net).edges.Perm (buildGraph net2).edges :=
    List.perm_of_nodup_nodup_toFinset_eq (nodup_buildGraph_edges net)
      (nodup_buildGraph_edges net2) hE
  have hdeg : ∀ n, inDeg (buildGraph net) n = inDeg (buildGraph net2) n :=
    fun n => hEperm.countP_eq _
  have hnodes_mem : ∀ n, n ∈ (buildGraph net).nodes ↔
      n ∈ (buildGraph net2).nodes := by
    intro n
    rw [mem_buildGraph_nodes, mem_buildGraph_nodes]
    constructor
    · rintro ⟨l, hl, hx⟩; exact ⟨l, hperm.mem_iff.mp hl, hx⟩
    · rintro ⟨l, hl, hx⟩; exact ⟨l, hperm.mem_iff.mpr hl, hx⟩
  have hN : (buildGraph net).nodes.toFinset =
      (buildGraph net2).nodes.toFinset := by
    ext n
    simp only [List.mem_toFinset]
    exact hnodes_mem n
  have hNperm : (buildGraph net).nodes.Perm (buildGraph net2).nodes :=
    List.perm_of_nodup_nodup_toFinset_eq (nodup_buildGraph_nodes net)
      (nodup_buildGraph_nodes net2) hN
  refine ⟨hE, hN, hdeg, ?_, ?_⟩
  · have hfun : (fun n => decide (2 ≤ inDeg (buildGraph net) n)) =
        (fun n => decide (2 ≤ inDeg (buildGraph net2) n)) :=
      funext fun n => by rw [hdeg n]
    rw [junction_nodes, junction_nodes, hfun]
    exact List.toFinset_eq_of_perm _ _ (hNperm.filter _)
  · have hfun : (fun n => !decide (2 ≤ inDeg (buildGraph net) n) &&
        decide (inDeg (buildGraph net) n = 0)) =
        (fun n => !decide (2 ≤ inDeg (buildGraph net2) n) &&
          decide (inDeg (buildGraph net2) n = 0)) :=
      funext fun n => by rw [hdeg n]
    rw [termini_nodes, termini_nodes, hfun]
    exact List.toFinset_eq_of_perm _ _ (hNperm.filter _)

/-- A permutation of `netC2` (first two polylines swapped) for the C8
witness. -/
def netC2swap : List (List (Int × Int)) :=
  [[(2, 2), (1, 0)], [(0, 0), (1, 0)], [(1, 0), (1, -1)]]

/-- Witness for C8: the graph built from `netC2` and from its permutation
`netC2swap` agree on edge set, node set, a sample in-degree, and both
classification sets. -/
theorem graph_perm_invariance_witness :
    (buildGraph netC2).edges.toFinset = (buildGraph netC2swap).edges.toFinset ∧
    (buildGraph netC2).nodes.toFinset = (buildGraph netC2swap).nodes.toFinset ∧
    (∀ n, inDeg (buildGraph netC2) n = inDeg (buildGraph netC2swap) n) ∧
    (junction_nodes (buildGraph netC2)).toFinset =
      (junction_nodes (buildGraph netC2swap)).toFinset ∧
    (termini_nodes (buildGraph netC2)).toFinset =
      (termini_nodes (buildGraph netC2swap)).toFinset :=
  graph_perm_invariance netC2 netC2swap (by decide)

/-- One directed step along a stored edge of the graph. -/
def stepRel {α : Type} [DecidableEq α] (G : NxDiGraph α) (a b : α) : Prop :=
  (a, b) ∈ G.edges

/-- The graph contains a directed cycle: some edge (a, b) closes a directed
path from b back to a. -/
def hasCycle {α : Type} [DecidableEq α] (G : NxDiGraph α) : Prop :=
  ∃ a b, (a, b) ∈ G.edges ∧ Relation.ReflTransGen (stepRel G) b a

/-- A finite graph with at least one edge in which every node has an
incoming edge contains a directed cycle: following predecessors must
revisit a node. -/
theorem hasCycle_of_all_inDeg_pos {α : Type} [DecidableEq α]
    (net : List (List α))
    (hne : (buildGraph net).edges ≠ [])
    (hdeg : ∀ n ∈ (buildGraph net).nodes, 1 ≤ inDeg (buildGraph net) n) :
    hasCycle (buildGraph net) := by
  have hpred : ∀ n : α, ∃ m : α, n ∈ (buildGraph net).nodes →
      (m, n) ∈ (buildGraph net).edges ∧ m ∈ (buildGraph net).nodes := by
    intro n
    by_cases hn : n ∈ (buildGraph net).nodes
    · have h1 : 0 < (buildGraph net).edges.countP
          (fun e => decide (e.2 = n)) := hdeg n hn
      rcases List.countP_pos_iff.mp h1 with ⟨e, he, hen⟩
      have h2 : e.2 = n := by simpa using hen
      refine ⟨e.1, fun _ => ⟨?_, (mem_nodes_of_mem_edges net e he).1⟩⟩
      have he2 : (e.1, n) = e := by
        rw [← h2]
      rw [he2]
      exact he
    · exact ⟨n, fun h => absurd h hn⟩
  choose pred hpredspec using hpred
  obtain ⟨e0, he0⟩ : ∃ e, e ∈ (buildGraph net).edges := by
    cases hE : (buildGraph net).edges with
    | nil => exact absurd hE hne
    | cons a l => exact ⟨a, List.mem_cons_self a l⟩
  have hfmem : ∀ k : Nat, pred^[k] e0.2 ∈ (buildGraph net).nodes := by
    intro k
    induction k with
    | zero => exact (mem_nodes_of_mem_edges net e0 he0).2
    | succ k ih =>
      rw [Function.iterate_succ_apply']
      exact (hpredspec (pred^[k] e0.2) ih).2
  have hstep : ∀ k : Nat,
      (pred^[k + 1] e0.2, pred^[k] e0.2) ∈ (buildGraph net).edges := by
    intro k
    rw [Function.iterate_succ_apply']
    exact (hpredspec (pred^[k] e0.2) (hfmem k)).1
  have hpath : ∀ k d : Nat, Relation.ReflTransGen (stepRel (buildGraph net))
      (pred^[k + d] e0.2) (pred^[k] e0.2) := by
    intro k d
    induction d with
    | zero => exact Relation.ReflTransGen.refl
    | succ d ih =>
      have hadd : k + (d + 1) = (k + d) + 1 := by omega
      rw [hadd]
      exact Relation.ReflTransGen.head (hstep (k + d)) ih
  have hcards : ((buildGraph net).nodes.toFinset.card <
      (Finset.range ((buildGraph net).nodes.toFinset.card + 1)).card) := by
    simp
  obtain ⟨i, -, j, -, hij, hfij⟩ :=
    Finset.exists_ne_map_eq_of_card_lt_of_maps_to hcards
      (fun k _ => List.mem_toFinset.mpr (hfmem k))
  have key : ∀ a b : Nat, a < b → pred^[a] e0.2 = pred^[b] e0.2 →
      hasCycle (buildGraph net) := by
    intro a b hab heq
    refine ⟨pred^[a + 1] e0.2, pred^[a] e0.2, hstep a, ?_⟩
    have hd : b = (a + 1) + (b - (a + 1)) := by omega
    have hp : Relation.ReflTransGen (stepRel (buildGraph net))
        (pred^[b] e0.2) (pred^[a + 1] e0.2) := by
      rw [hd]
      exact hpath (a + 1) (b - (a + 1))
    rw [heq]
    exact hp
  rcases Nat.lt_or_ge i j with hlt | hge
  · exact key i j hlt hfij
  · exact key j i (by omega) hfij.symm

/-- Claim C9: a non-empty stream network (some polyline with at least two
vertices) whose derived directed graph is acyclic always yields at least
one pour point, so `find_pour_points_with_networkx` returns a non-None
path; equivalently, the no-pour-points branch is reachable for a non-empty
network only when the graph contains a cycle. -/
theorem acyclic_nonempty_network_has_pour_point {γ κ : Type} [DecidableEq γ]
    (net : List (List (γ × γ))) (crs : κ)
    (hne : ∃ l ∈ net, 2 ≤ l.length)
    (hacyc : ¬hasCycle (buildGraph net)) :
    (find_pour_points_with_networkx (some net) crs).1 ≠ none := by
  obtain ⟨l, hl, hlen⟩ := hne
  have hlnil : lineEdges l ≠ [] := by
    have hzl : (lineEdges l).length = min l.length l.tail.length := by
      simp [lineEdges]
    have htl : l.tail.length = l.length - 1 := by simp
    intro hnil
    rw [hnil] at hzl
    simp at hzl
    omega
  obtain ⟨e0, he0l⟩ := List.exists_mem_of_ne_nil _ hlnil
  have he0 : e0 ∈ (buildGraph net).edges :=
    (mem_buildGraph_edges net e0).mpr ⟨l, hl, he0l⟩
  by_cases hterm : ∃ n ∈ (buildGraph net).nodes, inDeg (buildGraph net) n = 0
  · obtain ⟨n, hn, h0⟩ := hterm
    have hmem : n ∈ termini_nodes (buildGraph net) :=
      (mem_termini_nodes_iff _ _).mpr ⟨hn, h0⟩
    have hpts : ¬(points_data (buildGraph net)).isEmpty = true := by
      simp only [points_data, List.isEmpty_iff, List.append_eq_nil,
        List.map_eq_nil_iff]
      rintro ⟨-, htnil⟩
      rw [htnil] at hmem
      exact absurd hmem (List.not_mem_nil n)
    simp only [find_pour_points_with_networkx]
    rw [if_neg hpts]
    simp
  · exfalso
    apply hacyc
    apply hasCycle_of_all_inDeg_pos
    · intro hE
      rw [hE] at he0
      exact absurd he0 (List.not_mem_nil e0)
    · intro n hn
      by_contra h1
      push_neg at h1
      exact hterm ⟨n, hn, by omega⟩

/-- Single-polyline network for the C9 witness: one edge, no cycle. -/
def netC9 : List (List (Int × Int)) := [[(0, 0), (1, 0)]]

/-- Witness for C9 at a concrete acyclic network: both hypotheses are
discharged and the pour-point path is non-None. -/
theorem acyclic_nonempty_network_has_pour_point_witness :
    (find_pour_points_with_networkx (some netC9) (0 : Nat)).1 ≠ none := by
  refine acyclic_nonempty_network_has_pour_point netC9 0 (by decide) ?_
  rintro ⟨a, b, hab, hr⟩
  have hE : (buildGraph netC9).edges = [((0, 0), (1, 0))] := by decide
  rw [hE] at hab
  simp only [List.mem_singleton, Prod.mk.injEq] at hab
  obtain ⟨ha, hb⟩ := hab
  subst ha
  subst hb
  rcases Relation.ReflTransGen.cases_head hr with heq | ⟨c, hc, -⟩
  · exact absurd heq (by decide)
  · rw [stepRel, hE] at hc
    simp only [List.mem_singleton, Prod.mk.injEq] at hc
    exact absurd hc.1 (by decide)

/-! The accumulation loop of `delineate_sub_catchments`. -/

theorem foldl_append_eq_flatMap {σ π : Type} (f : σ → List π) (l : List σ)
    (acc : List π) :
    l.foldl (fun a p => a ++ f p) acc = acc ++ l.flatMap f := by
  induction l generalizing acc with
  | nil => simp
  | cons p l ih => simp [ih, List.append_assoc]

theorem flatMap_filter_nonempty {σ π : Type} (f : σ → List π) (l : List σ) :
    (l.filter (fun p => !(f p).isEmpty)).flatMap f = l.flatMap f := by
  induction l with
  | nil => rfl
  | cons p l ih =>
    by_cases hp : (f p).isEmpty
    · have hnil : f p = [] := List.isEmpty_iff.mp hp
      simp [hp, ih, hnil]
    · simp [hp, ih]

/-- Claim C5: in `delineate_sub_catchments`, a snapped pour point whose
trace yields zero polygons contributes nothing to the output while the
remaining points are still processed (the written polygon list equals the
concatenation over exactly the points with a non-empty polygon list), and
when the accumulated polygon set is empty the function returns None and
writes no output file. -/
theorem delineation_accumulation {γ κ π : Type}
    (snap : (γ × γ) → (γ × γ)) (shapesOf : (γ × γ) → List (π × Nat))
    (x y : List γ) (crs : κ) :
    (delineate_sub_catchments snap shapesOf (PourCoords.pair x y) crs =
        Except.ok none ↔
      ∀ p ∈ (x.zip y).map snap, polysFor shapesOf p = []) ∧
    (∀ r, delineate_sub_catchments snap shapesOf (PourCoords.pair x y) crs =
        Except.ok (some r) →
      r.1 = ((x.zip y).map snap).flatMap (polysFor shapesOf) ∧
      r.1 = (((x.zip y).map snap).filter
          (fun p => !(polysFor shapesOf p).isEmpty)).flatMap
          (polysFor shapesOf) ∧
      r.2 = crs) := by
  have hfold : ((x.zip y).map snap).foldl
      (fun acc p => acc ++ polysFor shapesOf p) [] =
      ((x.zip y).map snap).flatMap (polysFor shapesOf) := by
    rw [foldl_append_eq_flatMap]
    rfl
  constructor
  · simp only [delineate_sub_catchments, hfold, Except.ok.injEq]
    split
    · rename_i hempty
      simp only [List.isEmpty_iff, List.flatMap_eq_nil_iff] at hempty
      constructor
      · intro _
        exact hempty
      · intro _
        rfl
    · rename_i hempty
      simp only [List.isEmpty_iff, List.flatMap_eq_nil_iff] at hempty
      constructor
      · intro h
        exact absurd h (by simp)
      · intro h
        exact absurd h hempty
  · intro r
    simp only [delineate_sub_catchments, hfold, Except.ok.injEq]
    split
    · intro h
      exact absurd h (by simp)
    · intro h
      have hr : r =
          (((x.zip y).map snap).flatMap (polysFor shapesOf), crs) :=
        (Option.some_inj.mp h).symm
      subst hr
      refine ⟨rfl, ?_, rfl⟩
      exact (flatMap_filter_nonempty _ _).symm

/-- Snapping function for the C5 witness: the identity. -/
def snapC5 : (Int × Int) → (Int × Int) := id

/-- Catchment trace for the C5 witness: point (0, 0) yields one polygon of
value 1 and one of value 0; every other point yields nothing. -/
def shapesC5 : (Int × Int) → List (Nat × Nat) :=
  fun p => if p = (0, 0) then [(5, 1), (6, 0)] else []

/-- Witness for C5: with two pour points, one of which yields no polygon,
the output is exactly the polygons of the successful point, all conjuncts
discharged at the concrete result. -/
theorem delineation_accumulation_witness :
    delineate_sub_catchments snapC5 shapesC5
        (PourCoords.pair [0, 1] [0, 1]) (7 : Nat) =
      Except.ok (some ([5], 7)) ∧
    (([5] : List Nat) =
        ((([(0 : Int), 1]).zip [(0 : Int), 1]).map snapC5).flatMap
          (polysFor shapesC5) ∧
      ([5] : List Nat) =
        (((([(0 : Int), 1]).zip [(0 : Int), 1]).map snapC5).filter
            (fun p => !(polysFor shapesC5 p).isEmpty)).flatMap
          (polysFor shapesC5) ∧
      (7 : Nat) = 7) :=
  ⟨rfl,
    (delineation_accumulation snapC5 shapesC5 [0, 1] [0, 1] 7).2
      ([5], 7) rfl⟩

theorem dist2_self (p : ℤ × ℤ) : dist2 p p = 0 := by
  simp [dist2]

theorem eq_of_dist2_eq_zero (p m : ℤ × ℤ) (h : dist2 p m = 0) : m = p := by
  rcases p with ⟨p1, p2⟩
  rcases m with ⟨m1, m2⟩
  simp only [dist2] at h
  have h1 : (p1 - m1).natAbs ^ 2 = 0 := by omega
  have h2 : (p2 - m2).natAbs ^ 2 = 0 := by omega
  have h1a : (p1 - m1).natAbs = 0 := by
    exact (pow_eq_zero_iff (two_ne_zero)).mp h1
  have h2a : (p2 - m2).natAbs = 0 := by
    exact (pow_eq_zero_iff (two_ne_zero)).mp h2
  have e1 : p1 - m1 = 0 := Int.natAbs_eq_zero.mp h1a
  have e2 : p2 - m2 = 0 := Int.natAbs_eq_zero.mp h2a
  have : m1 = p1 := by omega
  have : m2 = p2 := by omega
  simp_all

/-- Claim C6: a pour point whose location already lies on a channel cell
(accumulation strictly positive) is left unchanged by the snapping step —
snapping is the identity on points that already satisfy the mask
predicate. -/
theorem snap_identity_on_channel (cells : List (ℤ × ℤ))
    (accOf : (ℤ × ℤ) → Nat) (p : ℤ × ℤ) (hp : p ∈ cells)
    (hacc : 0 < accOf p) :
    snap_to_mask (channel_cells cells accOf) p = p := by
  have hpm : p ∈ channel_cells cells accOf :=
    List.mem_filter.mpr ⟨hp, by simp [hacc]⟩
  cases hm : (channel_cells cells accOf).argmin (fun c => dist2 p c) with
  | none =>
    exact absurd (List.argmin_eq_none.mp hm) (List.ne_nil_of_mem hpm)
  | some m =>
    have hle : dist2 p m ≤ dist2 p p :=
      List.le_of_mem_argmin hpm (Option.mem_def.mpr hm)
    have h0 : dist2 p m = 0 := by
      rw [dist2_self] at hle
      omega
    have hmp : m = p := eq_of_dist2_eq_zero p m h0
    simp [snap_to_mask, hm, hmp]

/-- Raster cells for the C6 witness. -/
def cellsC6 : List (ℤ × ℤ) := [(0, 0), (1, 0), (0, 1), (1, 1)]

/-- Accumulation values for the C6 witness: positive on (1, 0) and (1, 1),
zero elsewhere. -/
def accC6 : (ℤ × ℤ) → Nat := fun c => if c.1 = 1 then 3 else 0

/-- Witness for C6: the point (1, 0) already lies on a channel cell and
snapping leaves it unchanged. -/
theorem snap_identity_on_channel_witness :
    snap_to_mask (channel_cells cellsC6 accC6) (1, 0) = (1, 0) :=
  snap_identity_on_channel cellsC6 accC6 (1, 0) (by decide) (by decide)

/-! Shape facts about the pour-point stage and CRS propagation helpers. -/

theorem find_pour_points_pair_result {γ κ : Type} [DecidableEq γ]
    (sn : Option (List (List (γ × γ)))) (crs : κ)
    (pr : List ((γ × γ) × PointType) × κ) (coords : PourCoords γ)
    (h : find_pour_points_with_networkx sn crs = (some pr, coords)) :
    coords = PourCoords.pair (pr.1.map (fun p => p.1.1))
        (pr.1.map (fun p => p.1.2)) ∧
      pr.2 = crs := by
  cases sn with
  | none => simp [find_pour_points_with_networkx] at h
  | some net =>
    simp only [find_pour_points_with_networkx] at h
    by_cases hpts : (points_data (buildGraph net)).isEmpty
    · rw [if_pos hpts] at h
      simp at h
    · rw [if_neg hpts] at h
      obtain ⟨h1, h2⟩ := Prod.mk.injEq _ _ _ _ ▸ h
      have hpr : pr = (points_data (buildGraph net), crs) :=
        (Option.some_inj.mp h1).symm
      subst hpr
      subst h2
      exact ⟨rfl, rfl⟩

theorem find_pour_points_none_coords {γ κ : Type} [DecidableEq γ]
    (sn : Option (List (List (γ × γ)))) (crs : κ) (coords : PourCoords γ)
    (h : find_pour_points_with_networkx sn crs = (none, coords)) :
    coords = PourCoords.emptyList := by
  cases sn with
  | none =>
    simp only [find_pour_points_with_networkx] at h
    exact ((Prod.mk.injEq _ _ _ _ ▸ h).2).symm
  | some net =>
    simp only [find_pour_points_with_networkx] at h
    by_cases hpts : (points_data (buildGraph net)).isEmpty
    · rw [if_pos hpts] at h
      exact ((Prod.mk.injEq _ _ _ _ ▸ h).2).symm
    · rw [if_neg hpts] at h
      simp at h

theorem streamFileCrs_eq {γ κ : Type} (hy : HydroEnv γ κ) (c : κ)
    (h : (perform_core_hydrology hy).streamFileCrs = some c) : c = hy.crs := by
  simp only [perform_core_hydrology] at h
  split at h
  · exact absurd h (by simp)
  · exact (Option.some_inj.mp h).symm

theorem delineate_ok_some_crs {γ κ π : Type} (snap : (γ × γ) → (γ × γ))
    (shapesOf : (γ × γ) → List (π × Nat)) (pc : PourCoords γ) (crs : κ)
    (r : List π × κ)
    (h : delineate_sub_catchments snap shapesOf pc crs =
      Except.ok (some r)) : r.2 = crs := by
  cases pc with
  | emptyList => simp [delineate_sub_catchments] at h
  | pair x y =>
    simp only [delineate_sub_catchments] at h
    have h2 := Except.ok.inj h
    split at h2
    · exact absurd h2 (by simp)
    · exact congrArg Prod.snd (Option.some_inj.mp h2).symm

/-- Claim C10: the two return shapes of `find_pour_points_with_networkx`
differ — on success the second component is a pair of two equal-length
coordinate lists, while in every empty case it is the bare empty list,
which would fail the unpacking `x, y = pour_point_coords` inside
`delineate_sub_catchments`; under `run_full_workflow_os` that failure is
unreachable (the unpack-error branch never fires), because delineation is
invoked only when the returned path is non-None. -/
theorem pour_coords_shape_safety {γ κ π : Type} [DecidableEq γ]
    (sn : Option (List (List (γ × γ)))) (crs : κ)
    (env : WorkflowEnv γ κ π) :
    ((find_pour_points_with_networkx sn crs).1 = none →
      (find_pour_points_with_networkx sn crs).2 = PourCoords.emptyList) ∧
    (∀ pr, (find_pour_points_with_networkx sn crs).1 = some pr →
      ∃ xs ys, (find_pour_points_with_networkx sn crs).2 =
        PourCoords.pair xs ys ∧ xs.length = ys.length) ∧
    (run_full_workflow_os env).unpackError = false := by
  refine ⟨?_, ?_, ?_⟩
  · intro h
    have hpair : find_pour_points_with_networkx sn crs =
        (none, (find_pour_points_with_networkx sn crs).2) := by
      rw [← h]
    exact find_pour_points_none_coords sn crs _ hpair
  · intro pr h
    have hpair : find_pour_points_with_networkx sn crs =
        (some pr, (find_pour_points_with_networkx sn crs).2) := by
      rw [← h]
    obtain ⟨hc, -⟩ := find_pour_points_pair_result sn crs pr _ hpair
    exact ⟨_, _, hc, by simp⟩
  · simp only [run_full_workflow_os]
    split
    · rfl
    · split
      · rfl
      · split
        · rfl
        · split
          · rfl
          · split
            · rfl
            · split
              · rename_i hfind hnodel hscr hpay hdel
                obtain ⟨hc, -⟩ :=
                  find_pour_points_pair_result _ _ _ _ hfind
                rw [hc] at hdel
                simp [delineate_sub_catchments] at hdel
              · rfl

/-- Concrete environment for the C10 witness (and others): one tile, a
hydrology result with one polyline, no exogenous exceptions. -/
def envC10 : WorkflowEnv Int Nat Unit :=
  { fetchResult := Except.ok ["tile0"], mergeFails := false,
    hydro := Except.ok { features := [[(0, 0), (1, 0)]], crs := 5 },
    pourExc := false, delinExc := false, snap := id,
    shapesOf := fun _ => [] }

/-- Witness for C10: at a concrete one-edge network the success shape has
equal-length coordinate lists, and a full concrete run never hits the
unpack-error branch. -/
theorem pour_coords_shape_safety_witness :
    (∃ xs ys,
      (find_pour_points_with_networkx (some netC9) (5 : Nat)).2 =
        PourCoords.pair xs ys ∧ xs.length = ys.length) ∧
    (run_full_workflow_os envC10).unpackError = false :=
  ⟨(pour_coords_shape_safety (some netC9) (5 : Nat) envC10).2.1
      (points_data (buildGraph netC9), 5) (by decide),
    (pour_coords_shape_safety (some netC9) (5 : Nat) envC10).2.2⟩

/-- Claim C1: when the tile fetch returns zero tiles,
`download_dem_for_aoi` returns None, and under `run_full_workflow_os` that
None makes the workflow halt after logging, invoking none of
`perform_core_hydrology`, `find_pour_points_with_networkx`, or
`delineate_sub_catchments`. -/
theorem zero_tiles_halts_workflow {γ κ π : Type} [DecidableEq γ]
    (env : WorkflowEnv γ κ π)
    (hfetch : env.fetchResult = Except.ok []) :
    download_dem_for_aoi env.fetchResult env.mergeFails = none ∧
    (run_full_workflow_os env).ranHydrology = false ∧
    (run_full_workflow_os env).ranTopology = false ∧
    (run_full_workflow_os env).ranDelineation = false ∧
    (run_full_workflow_os env).haltedNoDem = true ∧
    (run_full_workflow_os env).finishedLog = true := by
  have hdl : download_dem_for_aoi env.fetchResult env.mergeFails = none := by
    rw [hfetch]
    rfl
  refine ⟨hdl, ?_, ?_, ?_, ?_, ?_⟩ <;> simp [run_full_workflow_os, hdl]

/-- Environment for the C1 witness: the fetch returns zero tiles. -/
def envC1 : WorkflowEnv Int Nat Unit :=
  { fetchResult := Except.ok [], mergeFails := false,
    hydro := Except.ok { features := [], crs := 0 },
    pourExc := false, delinExc := false, snap := id,
    shapesOf := fun _ => [] }

/-- Witness for C1 at a concrete zero-tile environment. -/
theorem zero_tiles_halts_workflow_witness :
    download_dem_for_aoi envC1.fetchResult envC1.mergeFails = none ∧
    (run_full_workflow_os envC1).ranHydrology = false ∧
    (run_full_workflow_os envC1).ranTopology = false ∧
    (run_full_workflow_os envC1).ranDelineation = false ∧
    (run_full_workflow_os envC1).haltedNoDem = true ∧
    (run_full_workflow_os envC1).finishedLog = true :=
  zero_tiles_halts_workflow envC1 rfl

/-- Claim C3: with an absent stream network (`stream_network_path` None,
as produced by an empty feature list), `find_pour_points_with_networkx`
performs no work and returns an empty point set without error, and the
orchestrator skips `delineate_sub_catchments` entirely, logging the skip
and finishing the run normally. -/
theorem empty_network_skips_delineation {γ κ π : Type} [DecidableEq γ]
    (env : WorkflowEnv γ κ π) (d : String) (hy : HydroEnv γ κ)
    (hdl : download_dem_for_aoi env.fetchResult env.mergeFails = some d)
    (hhy : env.hydro = Except.ok hy)
    (hfeat : hy.features = [])
    (hnoexc : env.pourExc = false) :
    find_pour_points_with_networkx
        (none : Option (List (List (γ × γ)))) hy.crs =
      (none, PourCoords.emptyList) ∧
    (perform_core_hydrology hy).streamNet = none ∧
    (run_full_workflow_os env).ranTopology = true ∧
    (run_full_workflow_os env).ranDelineation = false ∧
    (run_full_workflow_os env).skipLogged = true ∧
    (run_full_workflow_os env).errorLogged = false ∧
    (run_full_workflow_os env).finishedLog = true := by
  have hstream : (perform_core_hydrology hy).streamNet = none := by
    simp [perform_core_hydrology, hfeat]
  have hcrs : (perform_core_hydrology hy).crs = hy.crs := by
    simp only [perform_core_hydrology]
    split <;> rfl
  have hfind : find_pour_points_with_networkx
      (perform_core_hydrology hy).streamNet
      (perform_core_hydrology hy).crs =
      (none, PourCoords.emptyList) := by
    rw [hstream]
    rfl
  refine ⟨rfl, hstream, ?_, ?_, ?_, ?_, ?_⟩ <;>
    simp [run_full_workflow_os, hdl, hhy, hnoexc, hfind]

/-- Environment for the C3 witness: one tile, empty stream feature list. -/
def envC3 : WorkflowEnv Int Nat Unit :=
  { fetchResult := Except.ok ["tile0"], mergeFails := false,
    hydro := Except.ok { features := [], crs := 9 },
    pourExc := false, delinExc := false, snap := id,
    shapesOf := fun _ => [] }

/-- Witness for C3 at a concrete empty-network environment. -/
theorem empty_network_skips_delineation_witness :
    find_pour_points_with_networkx
        (none : Option (List (List (Int × Int)))) (9 : Nat) =
      (none, PourCoords.emptyList) ∧
    (perform_core_hydrology
        ({ features := [], crs := 9 } : HydroEnv Int Nat)).streamNet =
      none ∧
    (run_full_workflow_os envC3).ranTopology = true ∧
    (run_full_workflow_os envC3).ranDelineation = false ∧
    (run_full_workflow_os envC3).skipLogged = true ∧
    (run_full_workflow_os envC3).errorLogged = false ∧
    (run_full_workflow_os envC3).finishedLog = true :=
  empty_network_skips_delineation envC3 "tile0"
    { features := [], crs := 9 } rfl rfl rfl rfl

/-- Claim C4: `run_full_workflow_os` never raises to its caller — for
every environment, including every combination of stage exceptions, the
run executes its final logging step and returns; an exception escaping any
reached stage is caught at the orchestrator boundary and logged. -/
theorem orchestrator_never_raises {γ κ π : Type} [DecidableEq γ]
    (env : WorkflowEnv γ κ π) :
    (run_full_workflow_os env).finishedLog = true ∧
    (∀ d u, download_dem_for_aoi env.fetchResult env.mergeFails = some d →
      env.hydro = Except.error u →
      (run_full_workflow_os env).errorLogged = true) ∧
    (∀ d hy, download_dem_for_aoi env.fetchResult env.mergeFails = some d →
      env.hydro = Except.ok hy → env.pourExc = true →
      (run_full_workflow_os env).errorLogged = true) ∧
    (∀ d hy pr coords,
      download_dem_for_aoi env.fetchResult env.mergeFails = some d →
      env.hydro = Except.ok hy → env.pourExc = false →
      env.delinExc = true →
      find_pour_points_with_networkx (perform_core_hydrology hy).streamNet
          (perform_core_hydrology hy).crs = (some pr, coords) →
      (run_full_workflow_os env).errorLogged = true) := by
  refine ⟨?_, ?_, ?_, ?_⟩
  · simp only [run_full_workflow_os]
    split
    · rfl
    · split
      · rfl
      · split
        · rfl
        · split
          · rfl
          · split
            · rfl
            · split
              · rfl
              · rfl
  · intro d u hdl hhy
    simp [run_full_workflow_os, hdl, hhy]
  · intro d hy hdl hhy hexc
    simp [run_full_workflow_os, hdl, hhy, hexc]
  · intro d hy pr coords hdl hhy hnoexc hdexc hfind
    simp [run_full_workflow_os, hdl, hhy, hnoexc, hdexc, hfind]

/-- Environment for the C4 witness: hydrology raises. -/
def envC4 : WorkflowEnv Int Nat Unit :=
  { fetchResult := Except.ok ["tile0"], mergeFails := false,
    hydro := Except.error (), pourExc := false, delinExc := false,
    snap := id, shapesOf := fun _ => [] }

/-- Witness for C4: a concrete run whose hydrology stage raises still
finishes its final logging, and the exception is logged. -/
theorem orchestrator_never_raises_witness :
    (run_full_workflow_os envC4).finishedLog = true ∧
    (run_full_workflow_os envC4).errorLogged = true :=
  ⟨(orchestrator_never_raises envC4).1,
    (orchestrator_never_raises envC4).2.1 "tile0" () rfl rfl⟩

theorem perform_core_hydrology_crs {γ κ : Type} (hy : HydroEnv γ κ) :
    (perform_core_hydrology hy).crs = hy.crs := by
  simp only [perform_core_hydrology]
  split <;> rfl

/-- Claim C7: every vector output of one run (stream network, pour points,
sub-catchments) carries the CRS read from the original elevation raster at
the start of `perform_core_hydrology`, passed unchanged through the
orchestrator to every downstream stage; no stage re-derives a CRS, so all
outputs of one run carry the same CRS. -/
theorem crs_propagation {γ κ π : Type} [DecidableEq γ]
    (env : WorkflowEnv γ κ π) (hy : HydroEnv γ κ)
    (hhy : env.hydro = Except.ok hy) :
    (perform_core_hydrology hy).crs = hy.crs ∧
    (∀ c, (run_full_workflow_os env).streamOut = some c → c = hy.crs) ∧
    (∀ pr, (run_full_workflow_os env).pourOut = some pr →
      pr.2 = hy.crs) ∧
    (∀ r, (run_full_workflow_os env).catchOut = some r → r.2 = hy.crs) := by
  refine ⟨perform_core_hydrology_crs hy, ?_⟩
  suffices h : (∀ c, (run_full_workflow_os env).streamOut = some c →
      c = hy.crs) ∧
      (∀ pr, (run_full_workflow_os env).pourOut = some pr →
        pr.2 = hy.crs) ∧
      (∀ r, (run_full_workflow_os env).catchOut = some r →
        r.2 = hy.crs) by
    exact h
  simp only [run_full_workflow_os]
  split
  · refine ⟨?_, ?_, ?_⟩ <;> intro a ha <;> simp at ha
  · split
    · refine ⟨?_, ?_, ?_⟩ <;> intro a ha <;> simp at ha
    · rename_i hy2 heq
      have hy2eq : hy2 = hy := by
        rw [hhy] at heq
        exact (Except.ok.inj heq).symm
      subst hy2eq
      split
      · refine ⟨?_, ?_, ?_⟩
        · intro c hc
          simp only at hc
          exact streamFileCrs_eq hy2 c hc
        · intro pr hpr
          simp at hpr
        · intro r hr
          simp at hr
      · split
        · refine ⟨?_, ?_, ?_⟩
          · intro c hc
            simp only at hc
            exact streamFileCrs_eq hy2 c hc
          · intro pr hpr
            simp at hpr
          · intro r hr
            simp at hr
        · rename_i pp coords hfind
          split
          · refine ⟨?_, ?_, ?_⟩
            · intro c hc
              simp only at hc
              exact streamFileCrs_eq hy2 c hc
            · intro pr hpr
              simp only [Option.some_inj] at hpr
              obtain ⟨-, hcrs⟩ :=
                find_pour_points_pair_result _ _ _ _ hfind
              rw [← hpr]
              rw [hcrs, perform_core_hydrology_crs]
            · intro r hr
              simp at hr
          · split
            · refine ⟨?_, ?_, ?_⟩
              · intro c hc
                simp only at hc
                exact streamFileCrs_eq hy2 c hc
              · intro pr hpr
                simp only [Option.some_inj] at hpr
                obtain ⟨-, hcrs⟩ :=
                  find_pour_points_pair_result _ _ _ _ hfind
                rw [← hpr]
                rw [hcrs, perform_core_hydrology_crs]
              · intro r hr
                simp at hr
            · rename_i hnodel hscr hres hdel
              refine ⟨?_, ?_, ?_⟩
              · intro c hc
                simp only at hc
                exact streamFileCrs_eq hy2 c hc
              · intro pr hpr
                simp only [Option.some_inj] at hpr
                obtain ⟨-, hcrs⟩ :=
                  find_pour_points_pair_result _ _ _ _ hfind
                rw [← hpr]
                rw [hcrs, perform_core_hydrology_crs]
              · intro r hr
                simp only at hr
                rw [hr] at hdel
                have := delineate_ok_some_crs env.snap env.shapesOf
                  coords (perform_core_hydrology hy2).crs r hdel
                rw [this, perform_core_hydrology_crs]

/-- Witness for C7: in a concrete run with CRS 5 read from the DEM, the
engine returns CRS 5 and the stream-network and pour-point outputs carry
exactly that CRS. -/
theorem crs_propagation_witness :
    (perform_core_hydrology
        ({ features := [[(0, 0), (1, 0)]], crs := 5 } :
          HydroEnv Int Nat)).crs = 5 ∧
    (5 : Nat) = 5 ∧
    ((points_data (buildGraph [[((0 : Int), (0 : Int)), (1, 0)]]),
        (5 : Nat)).2 = 5) :=
  ⟨(crs_propagation envC10
      { features := [[(0, 0), (1, 0)]], crs := 5 } rfl).1,
    (crs_propagation envC10
        { features := [[(0, 0), (1, 0)]], crs := 5 } rfl).2.1 5 (by decide),
    (crs_propagation envC10
        { features := [[(0, 0), (1, 0)]], crs := 5 } rfl).2.2.1
      (points_data (buildGraph [[((0 : Int), (0 : Int)), (1, 0)]]), 5)
      (by decide)⟩
